import Mathlib

/-!
Verification development for the adaptive video segmentation pipeline:
shallow embedding of `src/ingestion/adaptive_slicer.py`,
`src/index/vector_store.py` and `src/reasoning/graph_grounding.py`,
with theorems settling the specification claims.

Numeric conventions: Python floats are modelled as exact reals (`ℝ`) where
`numpy` statistics (mean / population standard deviation) are involved, and
as rationals (`ℚ`) for timestamps, which are produced by exact division of
a frame counter by the frame rate.
-/

namespace VideoRag

/-! ## Vector store (`src/index/vector_store.py`) -/

/-- Per-frame metadata as stored by `VectorStore.add_frames`:
`{"video_id": ..., "timestamp": ..., "frame_path": ...}`. -/
structure FrameMeta where
  video_id : String
  timestamp : ℚ
  frame_path : String
deriving DecidableEq, Repr

/-- Model of `VectorStore.get_temporal_context`: fetch all metadata rows of the given
video, keep those with `abs (ts - best_match_timestamp) ≤ window_seconds`,
and sort ascending by timestamp (Python `list.sort` is a stable ascending
sort, modelled by `List.mergeSort`). -/
def get_temporal_context (store : List FrameMeta) (best_match_timestamp : ℚ)
    (video_id : String) (window_seconds : ℚ) : List FrameMeta :=
  let results := store.filter (fun m => m.video_id == video_id)
  let context_frames :=
    results.filter (fun m => |m.timestamp - best_match_timestamp| ≤ window_seconds)
  context_frames.mergeSort (fun a b => a.timestamp ≤ b.timestamp)

/-! ## Knowledge graph (`src/reasoning/graph_grounding.py`) -/

/-- A node dict built by `VideoKnowledgeGraph.build_graph`. -/
structure GraphNode where
  id : String
  label : String
  start_time : ℚ
  end_time : ℚ
  representative_frame : String
deriving DecidableEq, Repr

/-- An edge dict built by `VideoKnowledgeGraph.build_graph`. -/
structure GraphEdge where
  source : String
  target : String
  type : String
deriving DecidableEq, Repr

/-- In-memory state of `VideoKnowledgeGraph`. -/
structure VideoKnowledgeGraph where
  nodes : List GraphNode
  edges : List GraphEdge
deriving DecidableEq, Repr

/-- One segment summary dict, as consumed by `build_graph`. -/
structure SegmentSummary where
  segment_id : ℕ
  summary : String
  start_time : ℚ
  end_time : ℚ
  representative_frame : String
deriving DecidableEq, Repr

/-- The node built from one summary inside the `build_graph` loop. -/
def mkGraphNode (s : SegmentSummary) : GraphNode :=
  { id := "node_" ++ toString s.segment_id
    label := s.summary
    start_time := s.start_time
    end_time := s.end_time
    representative_frame := s.representative_frame }

/-- One iteration of the `build_graph` loop: append the node; if a previous
node exists (`i > 0`), append a FOLLOWS edge from it to the new node. -/
def buildStep (acc : List GraphNode × List GraphEdge) (s : SegmentSummary) :
    List GraphNode × List GraphEdge :=
  let node := mkGraphNode s
  match acc.1.getLast? with
  | some prev =>
      (acc.1 ++ [node], acc.2 ++ [{ source := prev.id, target := node.id, type := "FOLLOWS" }])
  | none => (acc.1 ++ [node], acc.2)

/-- Model of `VideoKnowledgeGraph.build_graph`: resets `nodes`/`edges` (the prior
graph `_g` is discarded) and folds the loop over the summaries. -/
def build_graph (_g : VideoKnowledgeGraph) (segment_summaries : List SegmentSummary) :
    VideoKnowledgeGraph :=
  let r := segment_summaries.foldl buildStep ([], [])
  { nodes := r.1, edges := r.2 }

/-- Structured (JSON) values, modelling the content of the persisted graph
file. Python's `json` round-trips these values exactly. -/
inductive Json where
  | str : String → Json
  | num : ℚ → Json
  | arr : List Json → Json
  | obj : List (String × Json) → Json

/-- Dictionary field access `data[key]` on a JSON object. -/
def Json.getField : Json → String → Option Json
  | .obj fields, key => fields.lookup key
  | _, _ => none

/-- The dict shape of a node as written by `json.dump`. -/
def nodeToJson (n : GraphNode) : Json :=
  .obj [("id", .str n.id), ("label", .str n.label),
        ("start_time", .num n.start_time), ("end_time", .num n.end_time),
        ("representative_frame", .str n.representative_frame)]

/-- The dict shape of an edge as written by `json.dump`. -/
def edgeToJson (e : GraphEdge) : Json :=
  .obj [("source", .str e.source), ("target", .str e.target), ("type", .str e.type)]

/-- Reading one node dict back into its record form. -/
def nodeOfJson (j : Json) : Option GraphNode := do
  let .str id ← j.getField "id" | none
  let .str label ← j.getField "label" | none
  let .num st ← j.getField "start_time" | none
  let .num et ← j.getField "end_time" | none
  let .str rf ← j.getField "representative_frame" | none
  pure { id := id, label := label, start_time := st, end_time := et,
         representative_frame := rf }

/-- Reading one edge dict back into its record form. -/
def edgeOfJson (j : Json) : Option GraphEdge := do
  let .str source ← j.getField "source" | none
  let .str target ← j.getField "target" | none
  let .str ty ← j.getField "type" | none
  pure { source := source, target := target, type := ty }

/-- Model of `VideoKnowledgeGraph.save_graph`: the structured content written to the
file, `json.dump({"nodes": self.nodes, "edges": self.edges}, f)`. -/
def save_graph (g : VideoKnowledgeGraph) : Json :=
  .obj [("nodes", .arr (g.nodes.map nodeToJson)),
        ("edges", .arr (g.edges.map edgeToJson))]

/-- Model of `VideoKnowledgeGraph.load_graph`: if the file is absent the in-memory
graph `g` is left unchanged; otherwise `data["nodes"]` and `data["edges"]`
replace the state (`none` models the `KeyError`/shape failure path, which in
Python raises). -/
def load_graph (file : Option Json) (g : VideoKnowledgeGraph) :
    Option VideoKnowledgeGraph :=
  match file with
  | none => some g
  | some data => do
      let .arr ns ← data.getField "nodes" | none
      let .arr es ← data.getField "edges" | none
      let nodes ← ns.mapM nodeOfJson
      let edges ← es.mapM edgeOfJson
      pure { nodes := nodes, edges := edges }

/-! ## Adaptive slicer (`src/ingestion/adaptive_slicer.py`)

Dissimilarity scores and the numpy statistics over them are modelled as
exact reals. Timestamps are `count / fps` with a rational frame rate. -/

/-- Constructor parameters of `AdaptiveSlicer.__init__` together with the
fixed rolling-window capacity `history_size = 100`. -/
structure SlicerConfig where
  threshold_multiplier : ℝ
  min_threshold : ℝ
  motion_persistence : ℕ
  history_size : ℕ

/-- The default configuration: `threshold_multiplier=3.0, min_threshold=10.0,
motion_persistence=3`, `history_size = 100`. -/
def defaultSlicer : SlicerConfig :=
  { threshold_multiplier := 3, min_threshold := 10
    motion_persistence := 3, history_size := 100 }

/-- The `np.mean` of a list. -/
noncomputable def listMean (l : List ℝ) : ℝ := l.sum / l.length

/-- The population variance underlying `np.std`: mean of squared deviations
from the mean. -/
noncomputable def listVariance (l : List ℝ) : ℝ :=
  ((l.map (fun x => (x - listMean l) ^ 2)).sum) / l.length

/-- The `np.std` of a list (population standard deviation). -/
noncomputable def listStd (l : List ℝ) : ℝ := Real.sqrt (listVariance l)

/-- Model of `AdaptiveSlicer.get_dynamic_threshold`: `min_threshold` on an empty
history, otherwise `max(mean + k·std, min_threshold)`. -/
noncomputable def get_dynamic_threshold (cfg : SlicerConfig) (mad_history : List ℝ) : ℝ :=
  if mad_history = [] then cfg.min_threshold
  else
    max (listMean mad_history + cfg.threshold_multiplier * listStd mad_history)
      cfg.min_threshold

/-- A decoded frame, reduced to its grayscale pixel intensities (the colour
conversion in `calculate_mad` is out of scope of the claims). -/
abbrev Frame := List ℤ

/-- Model of `AdaptiveSlicer.calculate_mad`: mean absolute per-pixel difference of two
(grayscale) frames. -/
noncomputable def calculate_mad (frame1 frame2 : Frame) : ℝ :=
  listMean (List.zipWith (fun a b => |(a : ℝ) - (b : ℝ)|) frame1 frame2)

/-- The `"type"` field of an extracted keyframe dict. -/
inductive EventType where
  | scene_cut
  | high_motion
deriving DecidableEq, Repr

/-- One entry of `extracted_data` (the `frame_path` field is modelled
separately, by `frame_write_path`). -/
structure KeyframeRecord where
  timestamp : ℚ
  segment_id : ℕ
  type : EventType
deriving DecidableEq, Repr

/-- The mutable state of one `process_video` pass. -/
structure SlicerState where
  mad_history : List ℝ
  motion_counter : ℕ
  segment_id : ℕ
  records : List KeyframeRecord

/-- State at the top of `process_video`: empty history, zero counters,
`segment_id = 0`, no extracted records. -/
def initState : SlicerState :=
  { mad_history := [], motion_counter := 0, segment_id := 0, records := [] }

/-- The local `is_scene_cut = mad > threshold` of the `process_video` loop
(the threshold is computed from the history before `mad` is pushed). -/
noncomputable def stepIsSceneCut (cfg : SlicerConfig) (st : SlicerState) (mad : ℝ) : Prop :=
  mad > get_dynamic_threshold cfg st.mad_history

/-- The history update of the loop: append `mad`, then `pop(0)` once the
window exceeds `history_size`. -/
def stepHistory (cfg : SlicerConfig) (st : SlicerState) (mad : ℝ) : List ℝ :=
  let hist0 := st.mad_history ++ [mad]
  if hist0.length > cfg.history_size then hist0.tail else hist0

/-- The motion-counter update of the loop: increment while
`mad > threshold * 0.8`, otherwise reset to 0. -/
noncomputable def stepMotionCounter (cfg : SlicerConfig) (st : SlicerState) (mad : ℝ) : ℕ :=
  if mad > get_dynamic_threshold cfg st.mad_history * 0.8 then st.motion_counter + 1 else 0

/-- The local `is_high_motion = motion_counter >= self.motion_persistence`,
evaluated on the already-updated counter. -/
noncomputable def stepIsHighMotion (cfg : SlicerConfig) (st : SlicerState) (mad : ℝ) : Prop :=
  stepMotionCounter cfg st mad ≥ cfg.motion_persistence

noncomputable instance (cfg : SlicerConfig) (st : SlicerState) (mad : ℝ) :
    Decidable (stepIsSceneCut cfg st mad) :=
  inferInstanceAs (Decidable (mad > get_dynamic_threshold cfg st.mad_history))

noncomputable instance (cfg : SlicerConfig) (st : SlicerState) (mad : ℝ) :
    Decidable (stepIsHighMotion cfg st mad) :=
  inferInstanceAs (Decidable (stepMotionCounter cfg st mad ≥ cfg.motion_persistence))

/-- The body of the `process_video` loop for one frame transition, at frame
counter `count` with dissimilarity score `mad`:
compute the threshold from the current history, classify, push `mad` into
the FIFO window (evicting the oldest element past capacity), update the
motion counter, and retain the frame when it is a scene cut or high motion,
incrementing `segment_id` first on a scene cut. -/
noncomputable def processStep (cfg : SlicerConfig) (fps : ℚ) (count : ℕ)
    (mad : ℝ) (st : SlicerState) : SlicerState :=
  if stepIsSceneCut cfg st mad ∨ stepIsHighMotion cfg st mad then
    { mad_history := stepHistory cfg st mad
      motion_counter := stepMotionCounter cfg st mad
      segment_id :=
        if stepIsSceneCut cfg st mad then st.segment_id + 1 else st.segment_id
      records := st.records ++
        [{ timestamp := (count : ℚ) / fps
           segment_id :=
             if stepIsSceneCut cfg st mad then st.segment_id + 1 else st.segment_id
           type := if stepIsSceneCut cfg st mad then .scene_cut else .high_motion }] }
  else
    { mad_history := stepHistory cfg st mad
      motion_counter := stepMotionCounter cfg st mad
      segment_id := st.segment_id, records := st.records }

/-- The `while cap.isOpened()` loop of `process_video`, over the stream of
per-transition dissimilarity scores (the transition at frame counter `count`
compares frame `count - 1` with frame `count`). -/
noncomputable def slicer_loop (cfg : SlicerConfig) (fps : ℚ) :
    ℕ → SlicerState → List ℝ → SlicerState
  | _, st, [] => st
  | count, st, mad :: mads =>
      slicer_loop cfg fps (count + 1) (processStep cfg fps count mad st) mads

/-- Model of `AdaptiveSlicer.process_video` on a decoded frame list: the first frame
has no predecessor and is never classified; transition `i` scores frames
`i` and `i+1` and runs at frame counter `i + 1`. Returns `extracted_data`. -/
noncomputable def process_video (cfg : SlicerConfig) (fps : ℚ)
    (frames : List Frame) : List KeyframeRecord :=
  (slicer_loop cfg fps 1 initState
    (List.zipWith calculate_mad frames frames.tail)).records

/-- Python `%` on rationals with the sign convention of a positive modulus
(used for nonnegative timestamps here). -/
def pyfmod (a b : ℚ) : ℚ := a - b * ⌊a / b⌋

/-- Zero padding of `f"{n:0Nd}"` for nonnegative `n`. -/
def padZeros (width : ℕ) (s : String) : String :=
  String.mk (List.replicate (width - s.length) '0') ++ s

/-- Model of `AdaptiveSlicer.format_timestamp` for nonnegative `seconds`:
`MM_SS_mmm` with minutes zero-padded to 2, seconds to 2, milliseconds
to 3 digits. -/
def format_timestamp (seconds : ℚ) : String :=
  let minutes : ℕ := (⌊seconds / 60⌋).toNat
  let secs : ℕ := (⌊pyfmod seconds 60⌋).toNat
  let millis : ℕ := (⌊pyfmod seconds 1 * 1000⌋).toNat
  padZeros 2 (toString minutes) ++ "_" ++ padZeros 2 (toString secs) ++ "_" ++
    padZeros 3 (toString millis)

/-- The write-path logic of `process_video`, relative to the output
directory (`dirfiles` = names already present there): use `{ts_str}.jpg`,
falling back to `{ts_str}_{count}.jpg` when that file already exists. -/
def frame_write_path (dirfiles : List String) (ts_str : String) (count : ℕ) : String :=
  let frame_path := ts_str ++ ".jpg"
  if frame_path ∈ dirfiles then ts_str ++ "_" ++ toString count ++ ".jpg"
  else frame_path

/-- Number of extracted records classified as scene cuts. -/
def countSceneCuts (records : List KeyframeRecord) : ℕ :=
  (records.filter (fun r => r.type == EventType.scene_cut)).length

/-- Largest `segment_id` among the records (0 when there are none). -/
def maxSegmentId (records : List KeyframeRecord) : ℕ :=
  (records.map (fun r => r.segment_id)).foldr max 0

/-- The `segment_id` of the first record (0 when there are none). -/
def firstSegmentId (records : List KeyframeRecord) : ℕ :=
  ((records.head?).map (fun r => r.segment_id)).getD 0

/-- The FOLLOWS edges between chronologically adjacent nodes of a list. -/
def chainEdges (ns : List GraphNode) : List GraphEdge :=
  List.zipWith (fun a b => { source := a.id, target := b.id, type := "FOLLOWS" }) ns ns.tail

/-- Invariant of one `process_video` pass, at frame counter `count`:
record segment ids are bounded by the current segment id, record timestamps
lie strictly before `count / fps`, the number of scene-cut records equals
the current segment id, the largest recorded segment id is the current one
(once any record exists), and the records are strictly increasing in
timestamp and non-decreasing in segment id. -/
def SlicerInv (fps : ℚ) (count : ℕ) (st : SlicerState) : Prop :=
  (∀ r ∈ st.records, r.segment_id ≤ st.segment_id) ∧
  (∀ r ∈ st.records, r.timestamp < (count : ℚ) / fps) ∧
  countSceneCuts st.records = st.segment_id ∧
  (st.records = [] ∨ maxSegmentId st.records = st.segment_id) ∧
  st.records.Pairwise (fun a b => a.timestamp < b.timestamp ∧ a.segment_id ≤ b.segment_id)

/-! ## Helper lemmas -/

lemma min_threshold_le_dynamic (cfg : SlicerConfig) (h : List ℝ) :
    cfg.min_threshold ≤ get_dynamic_threshold cfg h := by
  unfold get_dynamic_threshold
  split
  · exact le_rfl
  · exact le_max_right _ _

lemma chainEdges_nil : chainEdges [] = [] := rfl

lemma chainEdges_singleton (a : GraphNode) : chainEdges [a] = [] := rfl

lemma chainEdges_cons_cons (a b : GraphNode) (l : List GraphNode) :
    chainEdges (a :: b :: l) =
      { source := a.id, target := b.id, type := "FOLLOWS" } :: chainEdges (b :: l) := rfl

lemma chainEdges_length (l : List GraphNode) : (chainEdges l).length = l.length - 1 := by
  simp [chainEdges]

lemma foldl_buildStep (ss : List SegmentSummary) :
    ∀ (ns : List GraphNode) (es : List GraphEdge),
      ss.foldl buildStep (ns, es) =
        (ns ++ ss.map mkGraphNode,
          es ++ chainEdges (ns.getLast?.toList ++ ss.map mkGraphNode)) := by
  induction ss with
  | nil =>
      intro ns es
      cases h : ns.getLast? <;> simp [h, chainEdges]
  | cons s rest ih =>
      intro ns es
      simp only [List.foldl_cons]
      cases h : ns.getLast? with
      | none =>
          have hns : ns = [] := by
            cases ns with
            | nil => rfl
            | cons a l => simp [List.getLast?_concat, List.getLast?] at h
          subst hns
          rw [show buildStep ([], es) s = ([mkGraphNode s], es) from rfl, ih]
          simp [chainEdges]
      | some p =>
          have hstep : buildStep (ns, es) s =
              (ns ++ [mkGraphNode s],
                es ++ [{ source := p.id, target := (mkGraphNode s).id, type := "FOLLOWS" }]) := by
            simp [buildStep, h]
          rw [hstep, ih]
          simp [List.getLast?_concat, h, chainEdges_cons_cons]

lemma nodeOfJson_nodeToJson (n : GraphNode) : nodeOfJson (nodeToJson n) = some n := rfl

lemma edgeOfJson_edgeToJson (e : GraphEdge) : edgeOfJson (edgeToJson e) = some e := rfl

lemma mapM_loop_nodeOfJson (l : List GraphNode) :
    ∀ acc : List GraphNode,
      List.mapM.loop nodeOfJson (l.map nodeToJson) acc = some (acc.reverse ++ l) := by
  induction l with
  | nil => intro acc; simp [List.mapM.loop]
  | cons n rest ih => intro acc; simp [List.mapM.loop, nodeOfJson_nodeToJson, ih]

lemma mapM_loop_edgeOfJson (l : List GraphEdge) :
    ∀ acc : List GraphEdge,
      List.mapM.loop edgeOfJson (l.map edgeToJson) acc = some (acc.reverse ++ l) := by
  induction l with
  | nil => intro acc; simp [List.mapM.loop]
  | cons e rest ih => intro acc; simp [List.mapM.loop, edgeOfJson_edgeToJson, ih]

lemma format_timestamp_one_thirtieth : format_timestamp (1 / 30) = "00_00_033" := by
  have h1 : (⌊(1:ℚ) / 30 / 60⌋ : ℤ) = 0 := by norm_num [Int.floor_eq_iff]
  have h0 : (⌊(1:ℚ) / 30 / 1⌋ : ℤ) = 0 := by norm_num [Int.floor_eq_iff]
  have h2 : (⌊pyfmod ((1:ℚ) / 30) 60⌋ : ℤ) = 0 := by
    rw [pyfmod, h1]
    norm_num [Int.floor_eq_iff]
  have h3 : (⌊pyfmod ((1:ℚ) / 30) 1 * 1000⌋ : ℤ) = 33 := by
    rw [pyfmod, h0]
    norm_num [Int.floor_eq_iff]
  rw [format_timestamp]
  rw [h1, h2, h3]
  rfl

/-! ## Claims -/

/-- C3: the adaptive threshold is `max(mean + k·stddev, min_threshold)` on a
non-empty history, `min_threshold` on an empty one, and is never below
`min_threshold`. -/
theorem C3_dynamic_threshold_formula (cfg : SlicerConfig) (h : List ℝ) :
    (h = [] → get_dynamic_threshold cfg h = cfg.min_threshold) ∧
    (h ≠ [] → get_dynamic_threshold cfg h =
      max (listMean h + cfg.threshold_multiplier * listStd h) cfg.min_threshold) ∧
    cfg.min_threshold ≤ get_dynamic_threshold cfg h := by
  refine ⟨fun he => by simp [get_dynamic_threshold, he],
    fun hne => by simp [get_dynamic_threshold, hne],
    min_threshold_le_dynamic cfg h⟩

/-- Witness for C3 at the default configuration, on the empty history and on
the one-sample history `[20]`. -/
theorem C3_dynamic_threshold_formula_witness :
    get_dynamic_threshold defaultSlicer [] = defaultSlicer.min_threshold ∧
    get_dynamic_threshold defaultSlicer [20] =
      max (listMean [20] + defaultSlicer.threshold_multiplier * listStd [20])
        defaultSlicer.min_threshold ∧
    defaultSlicer.min_threshold ≤ get_dynamic_threshold defaultSlicer [] :=
  ⟨(C3_dynamic_threshold_formula defaultSlicer []).1 rfl,
    (C3_dynamic_threshold_formula defaultSlicer [20]).2.1 (by simp),
    (C3_dynamic_threshold_formula defaultSlicer []).2.2⟩

/-- C6 (counterexample): two frames of a 30 fps video that both format to
`00_00_033` do get the frame index appended, but the disambiguated path is
not itself checked for existence: when `00_00_033_1.jpg` is already present
in the output directory, the write targets that existing file and
overwrites it. -/
theorem C6_no_overwrite_counterexample :
    format_timestamp (1 / 30) = "00_00_033" ∧
    frame_write_path ["00_00_033.jpg", "00_00_033_1.jpg"] (format_timestamp (1 / 30)) 1 =
      "00_00_033_1.jpg" ∧
    "00_00_033_1.jpg" ∈ ["00_00_033.jpg", "00_00_033_1.jpg"] := by
  rw [format_timestamp_one_thirtieth]
  exact ⟨rfl, by decide, by decide⟩

/-- C6 (amended): when the primary path `{ts}.jpg` already exists, the write
path is disambiguated by appending the frame index, and the write never
overwrites an existing file provided the disambiguated path
`{ts}_{count}.jpg` is not itself already present in the output directory. -/
theorem C6_no_overwrite_amended (dirfiles : List String) (ts_str : String) (count : ℕ)
    (hfresh : ts_str ++ "_" ++ toString count ++ ".jpg" ∉ dirfiles) :
    (ts_str ++ ".jpg" ∈ dirfiles →
      frame_write_path dirfiles ts_str count = ts_str ++ "_" ++ toString count ++ ".jpg") ∧
    frame_write_path dirfiles ts_str count ∉ dirfiles := by
  unfold frame_write_path
  by_cases h : ts_str ++ ".jpg" ∈ dirfiles
  · simp [h, hfresh]
  · simp [h]

/-- Witness for the amended C6: a directory already holding `00_00_033.jpg`
but not the fallback name. -/
theorem C6_no_overwrite_amended_witness :
    (format_timestamp (1 / 30) ++ "_" ++ toString 1 ++ ".jpg" ∉
      (["00_00_033.jpg"] : List String)) ∧
    frame_write_path ["00_00_033.jpg"] (format_timestamp (1 / 30)) 1 =
      format_timestamp (1 / 30) ++ "_" ++ toString 1 ++ ".jpg" ∧
    frame_write_path ["00_00_033.jpg"] (format_timestamp (1 / 30)) 1 ∉
      (["00_00_033.jpg"] : List String) := by
  have h := C6_no_overwrite_amended ["00_00_033.jpg"] (format_timestamp (1 / 30)) 1
    (by rw [format_timestamp_one_thirtieth]; decide)
  exact ⟨by rw [format_timestamp_one_thirtieth]; decide,
    h.1 (by rw [format_timestamp_one_thirtieth]; decide), h.2⟩

/-- C9: `build_graph` discards the prior graph, produces one node per
summary in input order, one FOLLOWS edge per consecutive pair, and so
`edges.length = max (nodes.length - 1) 0`. -/
theorem C9_build_graph_shape (g : VideoKnowledgeGraph) (ss : List SegmentSummary) :
    (build_graph g ss).nodes = ss.map mkGraphNode ∧
    (build_graph g ss).edges = chainEdges (ss.map mkGraphNode) ∧
    ((build_graph g ss).edges.length : ℤ) =
      max (((build_graph g ss).nodes.length : ℤ) - 1) 0 := by
  have h := foldl_buildStep ss [] []
  have hn : (build_graph g ss).nodes = ss.map mkGraphNode := by
    simp [build_graph, h]
  have he : (build_graph g ss).edges = chainEdges (ss.map mkGraphNode) := by
    simp [build_graph, h]
  refine ⟨hn, he, ?_⟩
  rw [hn, he, chainEdges_length]
  cases hss : ss.map mkGraphNode with
  | nil => simp
  | cons a l => simp

/-- C8: saving a graph and loading the result back yields the original
graph, node for node and edge for edge, in order. -/
theorem C8_save_load_roundtrip (g g0 : VideoKnowledgeGraph) :
    load_graph (some (save_graph g)) g0 = some g := by
  simp [load_graph, save_graph, Json.getField, List.lookup, mapM_loop_nodeOfJson,
    mapM_loop_edgeOfJson]

/-- C7: the temporal context query returns exactly the stored records of the
requested video inside the inclusive symmetric window, sorted ascending by
timestamp, and the empty list when nothing qualifies. -/
theorem C7_get_temporal_context_window (store : List FrameMeta) (t0 : ℚ)
    (vid : String) (w : ℚ) :
    (get_temporal_context store t0 vid w).Perm
      ((store.filter (fun m => m.video_id == vid)).filter
        (fun m => |m.timestamp - t0| ≤ w)) ∧
    (get_temporal_context store t0 vid w).Pairwise
      (fun a b => a.timestamp ≤ b.timestamp) ∧
    (∀ m ∈ get_temporal_context store t0 vid w,
      m ∈ store ∧ m.video_id = vid ∧ t0 - w ≤ m.timestamp ∧ m.timestamp ≤ t0 + w) ∧
    ((∀ m ∈ store, m.video_id = vid → ¬(|m.timestamp - t0| ≤ w)) →
      get_temporal_context store t0 vid w = []) := by
  have heq : get_temporal_context store t0 vid w =
      ((store.filter (fun m => m.video_id == vid)).filter
        (fun m => |m.timestamp - t0| ≤ w)).mergeSort
        (fun a b => a.timestamp ≤ b.timestamp) := rfl
  refine ⟨?_, ?_, ?_, ?_⟩
  · rw [heq]
    exact List.mergeSort_perm _ _
  · rw [heq]
    have hs := @List.sorted_mergeSort FrameMeta
      (fun a b : FrameMeta => decide (a.timestamp ≤ b.timestamp))
      (fun a b c hab hbc => by
        simp only [decide_eq_true_eq] at *
        exact le_trans hab hbc)
      (fun a b => by
        simp only [Bool.or_eq_true, decide_eq_true_eq]
        exact le_total a.timestamp b.timestamp)
      ((store.filter (fun m => m.video_id == vid)).filter
        (fun m => |m.timestamp - t0| ≤ w))
    exact hs.imp (by intro a b hab; simpa using hab)
  · intro m hm
    rw [heq, List.mem_mergeSort, List.mem_filter, List.mem_filter] at hm
    obtain ⟨⟨hstore, hvid⟩, hwin⟩ := hm
    simp only [beq_iff_eq] at hvid
    simp only [decide_eq_true_eq] at hwin
    have hb := abs_le.mp hwin
    exact ⟨hstore, hvid, by linarith [hb.1], by linarith [hb.2]⟩
  · intro hnone
    rw [heq]
    have hfil : (store.filter (fun m => m.video_id == vid)).filter
        (fun m => |m.timestamp - t0| ≤ w) = [] := by
      rw [List.filter_eq_nil_iff]
      intro m hm
      rw [List.mem_filter] at hm
      simp only [beq_iff_eq] at hm
      simp only [decide_eq_true_eq]
      exact hnone m hm.1 hm.2
    rw [hfil]
    simp

/-- Witness for C7: a one-record store in which no record of the requested
video lies inside the window yields the empty list rather than an error. -/
theorem C7_get_temporal_context_window_witness :
    get_temporal_context [{ video_id := "a", timestamp := 100, frame_path := "p" }]
      0 "b" 5 = [] :=
  (C7_get_temporal_context_window
    [{ video_id := "a", timestamp := 100, frame_path := "p" }] 0 "b" 5).2.2.2
    (by decide)

/-! ## Per-step classification lemmas for the slicer -/

lemma threshold_nil : get_dynamic_threshold defaultSlicer [] = 10 := by
  simp [get_dynamic_threshold, defaultSlicer]

lemma stepMotionCounter_of_scene_cut (cfg : SlicerConfig) (mad : ℝ) (st : SlicerState)
    (hmin : 0 < cfg.min_threshold) (hcut : stepIsSceneCut cfg st mad) :
    stepMotionCounter cfg st mad = st.motion_counter + 1 := by
  have hthr : 0 < get_dynamic_threshold cfg st.mad_history :=
    lt_of_lt_of_le hmin (min_threshold_le_dynamic cfg st.mad_history)
  have hcut' : get_dynamic_threshold cfg st.mad_history < mad := hcut
  have h08 : get_dynamic_threshold cfg st.mad_history * 0.8 < mad := by nlinarith
  rw [stepMotionCounter, if_pos h08]

lemma processStep_of_scene_cut (cfg : SlicerConfig) (fps : ℚ) (count : ℕ) (mad : ℝ)
    (st : SlicerState) (hcut : stepIsSceneCut cfg st mad) :
    processStep cfg fps count mad st =
      { mad_history := stepHistory cfg st mad
        motion_counter := stepMotionCounter cfg st mad
        segment_id := st.segment_id + 1
        records := st.records ++
          [{ timestamp := (count : ℚ) / fps,
             segment_id := st.segment_id + 1, type := .scene_cut }] } := by
  simp [processStep, hcut]

lemma stepIsSceneCut_example : stepIsSceneCut defaultSlicer initState 255 := by
  rw [stepIsSceneCut, show initState.mad_history = [] from rfl, threshold_nil]
  norm_num

lemma stepHistory_example : stepHistory defaultSlicer initState 255 = [255] := by
  simp [stepHistory, initState, defaultSlicer]

lemma processStep_example :
    processStep defaultSlicer 30 1 255 initState =
      { mad_history := [255], motion_counter := 1, segment_id := 1
        records := [{ timestamp := 1 / 30, segment_id := 1, type := .scene_cut }] } := by
  rw [processStep_of_scene_cut defaultSlicer 30 1 255 initState stepIsSceneCut_example]
  rw [stepMotionCounter_of_scene_cut defaultSlicer 255 initState (by norm_num [defaultSlicer])
    stepIsSceneCut_example, stepHistory_example]
  norm_num [initState]

/-- C1 (counterexample): at the first transition of a default-configured run
with dissimilarity 255, the transition is classified SCENE_CUT (the sole
record is a scene-cut record carrying segment 1), yet the motion counter
after the transition is 1, not 0: a scene cut increments the counter and the
incremented value persists. -/
theorem C1_motion_counter_counterexample :
    (processStep defaultSlicer 30 1 255 initState).records =
      [{ timestamp := 1 / 30, segment_id := 1, type := .scene_cut }] ∧
    (processStep defaultSlicer 30 1 255 initState).motion_counter = 1 ∧
    (processStep defaultSlicer 30 1 255 initState).motion_counter ≠ 0 := by
  rw [processStep_example]
  exact ⟨rfl, rfl, by decide⟩

/-- C1 (amended): on a transition whose score exceeds the current adaptive
threshold the classification is SCENE_CUT (a scene-cut record with the
incremented segment id is appended), and the motion counter after the
transition is the previous counter plus one — the transition counts toward
motion persistence; the counter is not reset to 0. -/
theorem C1_scene_cut_classification (cfg : SlicerConfig) (fps : ℚ) (count : ℕ)
    (mad : ℝ) (st : SlicerState) (hmin : 0 < cfg.min_threshold)
    (hcut : stepIsSceneCut cfg st mad) :
    (processStep cfg fps count mad st).records =
      st.records ++
        [{ timestamp := (count : ℚ) / fps,
           segment_id := st.segment_id + 1, type := .scene_cut }] ∧
    (processStep cfg fps count mad st).segment_id = st.segment_id + 1 ∧
    (processStep cfg fps count mad st).motion_counter = st.motion_counter + 1 := by
  rw [processStep_of_scene_cut cfg fps count mad st hcut]
  exact ⟨rfl, rfl, stepMotionCounter_of_scene_cut cfg mad st hmin hcut⟩

/-- Witness for the amended C1 at the default configuration, on the first
transition of a run with dissimilarity 255. -/
theorem C1_scene_cut_classification_witness :
    (processStep defaultSlicer 30 1 255 initState).records =
      initState.records ++
        [{ timestamp := ((1 : ℕ) : ℚ) / 30,
           segment_id := initState.segment_id + 1, type := .scene_cut }] ∧
    (processStep defaultSlicer 30 1 255 initState).segment_id =
      initState.segment_id + 1 ∧
    (processStep defaultSlicer 30 1 255 initState).motion_counter =
      initState.motion_counter + 1 :=
  C1_scene_cut_classification defaultSlicer 30 1 255 initState
    (by norm_num [defaultSlicer]) stepIsSceneCut_example

/-- C2: `segment_id` starts at 0; on a SCENE_CUT transition it is
incremented before the record is appended (the cut record carries the new
id); a HIGH_MOTION (non-cut) transition appends a record carrying the
unchanged id; an ordinary transition appends no record and leaves the id
unchanged. -/
theorem C2_segment_id_assignment (cfg : SlicerConfig) (fps : ℚ) (count : ℕ)
    (mad : ℝ) (st : SlicerState) :
    initState.segment_id = 0 ∧
    (stepIsSceneCut cfg st mad →
      (processStep cfg fps count mad st).segment_id = st.segment_id + 1 ∧
      (processStep cfg fps count mad st).records =
        st.records ++
          [{ timestamp := (count : ℚ) / fps,
             segment_id := st.segment_id + 1, type := .scene_cut }]) ∧
    (¬stepIsSceneCut cfg st mad → stepIsHighMotion cfg st mad →
      (processStep cfg fps count mad st).segment_id = st.segment_id ∧
      (processStep cfg fps count mad st).records =
        st.records ++
          [{ timestamp := (count : ℚ) / fps,
             segment_id := st.segment_id, type := .high_motion }]) ∧
    (¬stepIsSceneCut cfg st mad → ¬stepIsHighMotion cfg st mad →
      (processStep cfg fps count mad st).segment_id = st.segment_id ∧
      (processStep cfg fps count mad st).records = st.records) := by
  refine ⟨rfl, fun hcut => ?_, fun hnc hhm => ?_, fun hnc hnh => ?_⟩
  · simp [processStep, hcut]
  · simp [processStep, hnc, hhm]
  · simp [processStep, hnc, hnh]

/-- Witness for C2 at the default configuration: the scene-cut case on the
first transition of a run with dissimilarity 255. -/
theorem C2_segment_id_assignment_witness :
    (processStep defaultSlicer 30 1 255 initState).segment_id =
      initState.segment_id + 1 ∧
    (processStep defaultSlicer 30 1 255 initState).records =
      initState.records ++
        [{ timestamp := ((1 : ℕ) : ℚ) / 30,
           segment_id := initState.segment_id + 1, type := .scene_cut }] :=
  (C2_segment_id_assignment defaultSlicer 30 1 255 initState).2.1
    stepIsSceneCut_example

/-! ## Run-level invariants of the slicer -/

lemma countSceneCuts_append (l₁ l₂ : List KeyframeRecord) :
    countSceneCuts (l₁ ++ l₂) = countSceneCuts l₁ + countSceneCuts l₂ := by
  simp [countSceneCuts, List.filter_append]

lemma foldr_max_init (l : List ℕ) (a : ℕ) : l.foldr max a = max (l.foldr max 0) a := by
  induction l with
  | nil => simp
  | cons x xs ih => simp only [List.foldr_cons, ih]; omega

lemma maxSegmentId_append_singleton (l : List KeyframeRecord) (r : KeyframeRecord) :
    maxSegmentId (l ++ [r]) = max (maxSegmentId l) r.segment_id := by
  unfold maxSegmentId
  rw [List.map_append, List.foldr_append]
  simp only [List.map_cons, List.map_nil, List.foldr_cons, List.foldr_nil, Nat.max_zero]
  exact foldr_max_init _ _

lemma processStep_inv (cfg : SlicerConfig) {fps : ℚ} (hfps : 0 < fps) (count : ℕ)
    (mad : ℝ) {st : SlicerState} (h : SlicerInv fps count st) :
    SlicerInv fps (count + 1) (processStep cfg fps count mad st) := by
  obtain ⟨hseg, hts, hcuts, hmax, hpw⟩ := h
  have hstep : (count : ℚ) / fps < ((count + 1 : ℕ) : ℚ) / fps := by
    push_cast
    gcongr
    linarith
  by_cases hret : stepIsSceneCut cfg st mad ∨ stepIsHighMotion cfg st mad
  · rw [processStep, if_pos hret]
    set newseg := if stepIsSceneCut cfg st mad then st.segment_id + 1 else st.segment_id
      with hnseg
    have hsegle : st.segment_id ≤ newseg := by rw [hnseg]; split <;> omega
    refine ⟨?_, ?_, ?_, ?_, ?_⟩
    · intro r hr
      rcases List.mem_append.mp hr with h1 | h2
      · exact le_trans (hseg r h1) hsegle
      · rw [List.mem_singleton] at h2
        subst h2
        exact le_rfl
    · intro r hr
      rcases List.mem_append.mp hr with h1 | h2
      · exact lt_trans (hts r h1) hstep
      · rw [List.mem_singleton] at h2
        subst h2
        exact hstep
    · show countSceneCuts (st.records ++ _) = newseg
      rw [countSceneCuts_append, hcuts]
      by_cases hc : stepIsSceneCut cfg st mad
      · simp [countSceneCuts, hc, hnseg]
      · simp [countSceneCuts, hc, hnseg]
    · right
      show maxSegmentId (st.records ++ _) = newseg
      rw [maxSegmentId_append_singleton]
      rcases hmax with h0 | h1
      · rw [h0]
        simp [maxSegmentId]
      · rw [h1]
        exact Nat.max_eq_right hsegle
    · show List.Pairwise _ (st.records ++ _)
      rw [List.pairwise_append]
      refine ⟨hpw, List.pairwise_singleton _ _, ?_⟩
      intro a ha b hb
      rw [List.mem_singleton] at hb
      subst hb
      exact ⟨hts a ha, le_trans (hseg a ha) hsegle⟩
  · rw [processStep, if_neg hret]
    exact ⟨hseg, fun r hr => lt_trans (hts r hr) hstep, hcuts, hmax, hpw⟩

lemma slicerInv_init (fps : ℚ) : SlicerInv fps 1 initState := by
  simp [SlicerInv, initState, countSceneCuts]

lemma slicer_loop_inv (cfg : SlicerConfig) {fps : ℚ} (hfps : 0 < fps) (mads : List ℝ) :
    ∀ (count : ℕ) (st : SlicerState), SlicerInv fps count st →
      SlicerInv fps (count + mads.length) (slicer_loop cfg fps count st mads) := by
  induction mads with
  | nil =>
      intro count st h
      simpa [slicer_loop] using h
  | cons m ms ih =>
      intro count st h
      have hrec := ih (count + 1) _ (processStep_inv cfg hfps count m h)
      have heq : count + (m :: ms).length = count + 1 + ms.length := by
        simp only [List.length_cons]
        omega
      rw [heq]
      simpa only [slicer_loop] using hrec

lemma calculate_mad_example : calculate_mad [0] ([255] : Frame) = 255 := by
  simp [calculate_mad, listMean]

lemma process_video_example :
    process_video defaultSlicer 30 [[0], [255]] =
      [{ timestamp := 1 / 30, segment_id := 1, type := .scene_cut }] := by
  rw [process_video]
  have hz : List.zipWith calculate_mad [([0] : Frame), [255]] ([[0], [255]] : List Frame).tail =
      [(255 : ℝ)] := by
    simp [calculate_mad_example]
  rw [hz]
  simp only [slicer_loop]
  rw [processStep_example]

/-- C4 (counterexample): on a two-frame black→white video the single
record is the scene cut itself, carrying segment 1, so the record count of
scene cuts (1) differs from `max segment_id − segment_id of first record`
(1 − 1 = 0): the claimed difference form fails when the first record is a
scene cut. -/
theorem C4_cut_count_counterexample :
    countSceneCuts (process_video defaultSlicer 30 [[0], [255]]) = 1 ∧
    maxSegmentId (process_video defaultSlicer 30 [[0], [255]]) = 1 ∧
    firstSegmentId (process_video defaultSlicer 30 [[0], [255]]) = 1 ∧
    countSceneCuts (process_video defaultSlicer 30 [[0], [255]]) ≠
      maxSegmentId (process_video defaultSlicer 30 [[0], [255]]) -
        firstSegmentId (process_video defaultSlicer 30 [[0], [255]]) := by
  rw [process_video_example]
  exact ⟨rfl, rfl, rfl, by decide⟩

/-- C4 (amended): whenever the pass produces any record, the number of
SCENE_CUT records equals the maximum segment id among the records (which
agrees with `max − first` exactly when the first record is not itself a
scene cut, the first record's segment id then being 0); when no scene cut
occurs every record carries segment id 0. -/
theorem C4_cut_count_amended (cfg : SlicerConfig) {fps : ℚ} (hfps : 0 < fps)
    (frames : List Frame) :
    (process_video cfg fps frames ≠ [] →
      countSceneCuts (process_video cfg fps frames) =
        maxSegmentId (process_video cfg fps frames)) ∧
    (countSceneCuts (process_video cfg fps frames) = 0 →
      ∀ r ∈ process_video cfg fps frames, r.segment_id = 0) := by
  have h := slicer_loop_inv cfg hfps (List.zipWith calculate_mad frames frames.tail) 1
    initState (slicerInv_init fps)
  obtain ⟨hseg, -, hcuts, hmax, -⟩ := h
  constructor
  · intro hne
    rw [process_video] at hne ⊢
    rcases hmax with h0 | h1
    · exact absurd h0 hne
    · rw [hcuts, h1]
  · intro hz r hr
    rw [process_video] at hz hr
    have h2 := hseg r hr
    omega

/-- Witness for the amended C4 on the two-frame black→white video. -/
theorem C4_cut_count_amended_witness :
    process_video defaultSlicer 30 [[0], [255]] ≠ [] ∧
    countSceneCuts (process_video defaultSlicer 30 [[0], [255]]) =
      maxSegmentId (process_video defaultSlicer 30 [[0], [255]]) := by
  have hne : process_video defaultSlicer 30 [[0], [255]] ≠ [] := by
    rw [process_video_example]
    exact List.cons_ne_nil _ _
  exact ⟨hne,
    (C4_cut_count_amended defaultSlicer (by norm_num) [[0], [255]]).1 hne⟩

/-- C10: in a single pass, the produced records are strictly increasing in
timestamp and non-decreasing in segment id. -/
theorem C10_records_ordered (cfg : SlicerConfig) {fps : ℚ} (hfps : 0 < fps)
    (frames : List Frame) :
    (process_video cfg fps frames).Pairwise (fun a b => a.timestamp < b.timestamp) ∧
    (process_video cfg fps frames).Pairwise (fun a b => a.segment_id ≤ b.segment_id) := by
  have h := slicer_loop_inv cfg hfps (List.zipWith calculate_mad frames frames.tail) 1
    initState (slicerInv_init fps)
  obtain ⟨-, -, -, -, hpw⟩ := h
  rw [process_video]
  exact ⟨hpw.imp fun hab => hab.1, hpw.imp fun hab => hab.2⟩

/-- Witness for C10 on the two-frame black→white video at 30 fps. -/
theorem C10_records_ordered_witness :
    (process_video defaultSlicer 30 [[0], [255]]).Pairwise
      (fun a b => a.timestamp < b.timestamp) ∧
    (process_video defaultSlicer 30 [[0], [255]]).Pairwise
      (fun a b => a.segment_id ≤ b.segment_id) :=
  C10_records_ordered defaultSlicer (by norm_num) [[0], [255]]

/-! ## Monotonicity of the adaptive threshold under high samples -/

lemma sum_map_sub_sq (l : List ℝ) (c : ℝ) :
    (l.map (fun x => (x - c) ^ 2)).sum =
      (l.map (fun x => x ^ 2)).sum - 2 * c * l.sum + l.length * c ^ 2 := by
  induction l with
  | nil => simp
  | cons x xs ih =>
      simp only [List.map_cons, List.sum_cons, List.length_cons, ih]
      push_cast
      ring

lemma listVariance_eq_sub (l : List ℝ) (hl : l ≠ []) :
    listVariance l = (l.map (fun x => x ^ 2)).sum / l.length - (listMean l) ^ 2 := by
  have hn : (l.length : ℝ) ≠ 0 := by
    have := List.length_pos.mpr hl
    positivity
  rw [listVariance, sum_map_sub_sq, listMean]
  field_simp
  ring

lemma listVariance_nonneg (l : List ℝ) : 0 ≤ listVariance l := by
  apply div_nonneg
  · apply List.sum_nonneg
    intro x hx
    obtain ⟨y, -, rfl⟩ := List.mem_map.mp hx
    positivity
  · positivity

lemma listMean_append_ge (h : List ℝ) (s : ℝ) (hne : h ≠ []) (hs : listMean h ≤ s) :
    listMean h ≤ listMean (h ++ [s]) := by
  have hn1 : (1 : ℝ) ≤ h.length := by
    have := List.length_pos.mpr hne
    exact_mod_cast this
  have hn0 : (0 : ℝ) < h.length := by linarith
  rw [listMean] at hs ⊢
  rw [div_le_iff hn0] at hs
  simp only [listMean, List.sum_append, List.sum_cons, List.sum_nil, List.length_append,
    List.length_cons, List.length_nil]
  push_cast
  rw [div_le_div_iff hn0 (by linarith)]
  nlinarith

lemma listVariance_append_ge (h : List ℝ) (s : ℝ) (hne : h ≠ [])
    (hs : listMean h + 3 * listStd h ≤ s) :
    listVariance h ≤ listVariance (h ++ [s]) := by
  set n : ℝ := (h.length : ℝ) with hn
  set S : ℝ := h.sum with hS
  set Q : ℝ := (h.map (fun x => x ^ 2)).sum with hQ
  have hn1 : (1 : ℝ) ≤ n := by
    have := List.length_pos.mpr hne
    rw [hn]
    exact_mod_cast this
  have hn0 : n ≠ 0 := by linarith
  have hmean : listMean h = S / n := by rw [listMean]
  have hv : listVariance h = Q / n - (S / n) ^ 2 := by
    rw [listVariance_eq_sub h hne, hmean]
  have hne' : h ++ [s] ≠ [] := by simp
  have hv' : listVariance (h ++ [s]) = (Q + s ^ 2) / (n + 1) - ((S + s) / (n + 1)) ^ 2 := by
    rw [listVariance_eq_sub _ hne']
    simp only [listMean, List.map_append, List.map_cons, List.map_nil, List.sum_append,
      List.sum_cons, List.sum_nil, List.length_append, List.length_cons, List.length_nil]
    push_cast
    rw [← hQ, ← hS, ← hn]
    ring
  have hv0 : 0 ≤ listVariance h := listVariance_nonneg h
  have hsq : listStd h ^ 2 = listVariance h := Real.sq_sqrt hv0
  have hstd0 : 0 ≤ listStd h := Real.sqrt_nonneg _
  set d : ℝ := s - S / n with hd
  have hds : 3 * listStd h ≤ d := by
    rw [hd]
    rw [hmean] at hs
    linarith
  have hd2 : 9 * listVariance h ≤ d ^ 2 := by nlinarith [hsq, hstd0, hds]
  have h9 : 9 * (Q / n - (S / n) ^ 2) ≤ d ^ 2 := by
    rw [← hv]
    exact hd2
  have hv0' : 0 ≤ Q / n - (S / n) ^ 2 := hv ▸ hv0
  have key : listVariance (h ++ [s]) - listVariance h =
      (n * d ^ 2 - (n + 1) * (Q / n - (S / n) ^ 2)) / ((n + 1) * (n + 1)) := by
    rw [hv, hv', hd]
    field_simp
    ring
  have hnum : 0 ≤ n * d ^ 2 - (n + 1) * (Q / n - (S / n) ^ 2) := by
    nlinarith [mul_le_mul_of_nonneg_left h9 (by linarith : (0 : ℝ) ≤ n),
      mul_nonneg hv0' (by linarith : (0 : ℝ) ≤ n)]
  have hpos : 0 ≤ (n * d ^ 2 - (n + 1) * (Q / n - (S / n) ^ 2)) / ((n + 1) * (n + 1)) :=
    div_nonneg hnum (by nlinarith)
  linarith [key, hpos]

/-- C5: while the rolling window holds fewer than the 100-sample capacity,
appending a high-variance sample (one at or above the current adaptive
threshold) can only raise the threshold, never lower it. -/
theorem C5_threshold_monotone (h : List ℝ) (s : ℝ)
    (hlen : h.length < defaultSlicer.history_size)
    (hs : get_dynamic_threshold defaultSlicer h ≤ s) :
    get_dynamic_threshold defaultSlicer h ≤ get_dynamic_threshold defaultSlicer (h ++ [s]) := by
  by_cases hne : h = []
  · subst hne
    rw [get_dynamic_threshold, if_pos rfl]
    simp only [List.nil_append]
    rw [get_dynamic_threshold, if_neg (by simp)]
    exact le_max_right _ _
  · have hthr_eq : get_dynamic_threshold defaultSlicer h =
        max (listMean h + 3 * listStd h) 10 := by
      rw [get_dynamic_threshold, if_neg hne]
      rfl
    have hstd0 : 0 ≤ listStd h := Real.sqrt_nonneg _
    rw [hthr_eq] at hs
    have hub : listMean h + 3 * listStd h ≤ s := le_trans (le_max_left _ _) hs
    have hmean := listMean_append_ge h s hne (by linarith)
    have hvar := listVariance_append_ge h s hne hub
    have hstd : listStd h ≤ listStd (h ++ [s]) := Real.sqrt_le_sqrt hvar
    have hne' : h ++ [s] ≠ [] := by simp
    rw [hthr_eq, get_dynamic_threshold, if_neg hne']
    have hle : listMean h + 3 * listStd h ≤ listMean (h ++ [s]) + 3 * listStd (h ++ [s]) := by
      linarith
    exact max_le_max hle le_rfl

/-- Witness for C5: the one-sample window `[20]` (threshold 20) grows to
`[20, 20]`; the threshold does not decrease. -/
theorem C5_threshold_monotone_witness :
    get_dynamic_threshold defaultSlicer [20] ≤
      get_dynamic_threshold defaultSlicer ([20] ++ [20]) := by
  have hv : listVariance [(20 : ℝ)] = 0 := by
    simp [listVariance, listMean]
  have hstd : listStd [(20 : ℝ)] = 0 := by
    rw [listStd, hv, Real.sqrt_zero]
  have hthr : get_dynamic_threshold defaultSlicer [20] = 20 := by
    rw [get_dynamic_threshold, if_neg (by simp), hstd]
    norm_num [listMean, defaultSlicer]
  exact C5_threshold_monotone [20] 20 (by norm_num [defaultSlicer]) (le_of_eq hthr)

end VideoRag
